import Mathlib

/-!
Verification of the background task-processing engine of the dalle2_android
repository: worker lifecycle and priority queue (src/workers/base_worker.py),
API request retry logic and token-bucket limiter (src/workers/api_request.py),
token bucket and circuit breaker (src/services/rate_limiter.py), and the
manager's error recovery (src/workers/worker_manager.py).

Machine integers and floats are modelled as Nat/Int/ℚ; wall-clock timestamps
are explicit parameters (Python's time.time() is assumed monotone, which the
theorems carry as hypotheses where it matters).
-/

namespace Dalle

/-- Worker lifecycle states, from base_worker.py `WorkerState`. -/
inductive WorkerState where
  | idle
  | running
  | paused
  | stopped
  | error
deriving DecidableEq, Repr

/-- Task priorities with numeric values 0..3, from base_worker.py `WorkerPriority`. -/
inductive WorkerPriority where
  | low
  | normal
  | high
  | critical
deriving DecidableEq, Repr

/-- The `.value` of each priority (LOW = 0 .. CRITICAL = 3). -/
def WorkerPriority.value : WorkerPriority → Nat
  | .low => 0
  | .normal => 1
  | .high => 2
  | .critical => 3

/-- One entry of the worker's `queue.PriorityQueue`. `add_task` puts the tuple
`(priority.value * -1, time.time(), task)`; `negPriority` is the first field,
`timestamp` the second (timestamps are modelled as the add_task call index,
since successive time.time() calls are strictly increasing), and `taskId`
stands for the opaque task object. -/
structure QEntry where
  negPriority : Int
  timestamp : Nat
  taskId : Nat
deriving DecidableEq, Repr

/-- Tuple comparison on the first two components of a queue entry, as Python
compares `(priority, timestamp, task)` tuples (the task component is never
reached when timestamps are distinct). -/
def keyLE (a b : QEntry) : Prop :=
  a.negPriority < b.negPriority ∨
    (a.negPriority = b.negPriority ∧ a.timestamp ≤ b.timestamp)

instance : DecidableRel keyLE := fun a b =>
  inferInstanceAs (Decidable (a.negPriority < b.negPriority ∨
    (a.negPriority = b.negPriority ∧ a.timestamp ≤ b.timestamp)))

/-- Strict tuple comparison on the first two components of a queue entry. -/
def keyLT (a b : QEntry) : Prop :=
  a.negPriority < b.negPriority ∨
    (a.negPriority = b.negPriority ∧ a.timestamp < b.timestamp)

instance : DecidableRel keyLT := fun a b =>
  inferInstanceAs (Decidable (a.negPriority < b.negPriority ∨
    (a.negPriority = b.negPriority ∧ a.timestamp < b.timestamp)))

/-- The `queue.PriorityQueue` is a min-heap: `get` retrieves the lowest entry
first. Its observable content is therefore the key-sorted list of entries;
`put` inserts an entry at its key position. -/
def pqInsert (e : QEntry) : List QEntry → List QEntry
  | [] => [e]
  | x :: xs => if keyLE e x then e :: x :: xs else x :: pqInsert e xs

/-- State of a `BaseWorker` (base_worker.py `__init__`). The source's
`_stop_event` is set exactly when a successful `stop()` has run, i.e. exactly
when `state = stopped`; `_pause_event` is cleared exactly while
`state = paused`; both are therefore derived from `state` here. -/
structure BaseWorker where
  state : WorkerState
  queue : List QEntry
  max_queue_size : Nat
  error_count : Nat
  max_errors : Nat
  error_cooldown : Nat
  last_error_time : Nat
  completed_tasks : Nat
  failed_tasks : Nat
deriving DecidableEq, Repr

/-- A freshly constructed worker (base_worker.py `__init__`): IDLE, empty
queue, `max_errors = 5`, `error_cooldown = 60`. -/
def BaseWorker.init (max_queue_size : Nat) : BaseWorker :=
  { state := .idle
    queue := []
    max_queue_size := max_queue_size
    error_count := 0
    max_errors := 5
    error_cooldown := 60
    last_error_time := 0
    completed_tasks := 0
    failed_tasks := 0 }

/-- base_worker.py `add_task`: `queue.put((priority.value * -1, time.time(), task),
block=False)` raises `queue.Full` (→ return False) exactly when the queue holds
`max_queue_size` items; otherwise the entry is inserted and True is returned.
The worker's `state` is not consulted. -/
def BaseWorker.add_task (w : BaseWorker) (priority : WorkerPriority)
    (timestamp taskId : Nat) : Bool × BaseWorker :=
  if w.max_queue_size ≤ w.queue.length then
    (false, w)
  else
    (true, { w with
      queue := pqInsert ⟨-(priority.value : Int), timestamp, taskId⟩ w.queue })

/-- Submit a whole list of `add_task` calls to a worker; the i-th call carries
timestamp i (time.time() strictly increases between calls) and task id i. -/
def BaseWorker.enqueueAll (w : BaseWorker) (reqs : List WorkerPriority) : BaseWorker :=
  reqs.enum.foldl (fun acc ip => (acc.add_task ip.2 ip.1 ip.1).2) w

/-- Draining the queue by repeated `queue.get` (each `get` removes the lowest
entry, which is the head of the sorted representation): the dequeue sequence. -/
def dequeueSeq : List QEntry → List QEntry
  | [] => []
  | x :: xs => x :: dequeueSeq xs

/-- The order in which an initially idle worker's tasks would be dequeued after
a sequence of `add_task` calls. -/
def workerDequeueOrder (max_queue_size : Nat) (reqs : List WorkerPriority) : List QEntry :=
  dequeueSeq ((BaseWorker.init max_queue_size).enqueueAll reqs).queue

/-- base_worker.py `start`: fails unless the state is IDLE; otherwise the state
becomes RUNNING, `_stop_event` is cleared and the thread is spawned. -/
def BaseWorker.start (w : BaseWorker) : Bool × BaseWorker :=
  if w.state ≠ .idle then
    (false, w)
  else
    (true, { w with state := .running })

/-- base_worker.py `stop`: fails unless the state is RUNNING or PAUSED;
otherwise the state becomes STOPPED and `_stop_event` is set. -/
def BaseWorker.stop (w : BaseWorker) : Bool × BaseWorker :=
  if w.state = .running ∨ w.state = .paused then
    (true, { w with state := .stopped })
  else
    (false, w)

/-- base_worker.py `pause`: RUNNING → PAUSED, otherwise a no-op returning false. -/
def BaseWorker.pause (w : BaseWorker) : Bool × BaseWorker :=
  if w.state = .running then
    (true, { w with state := .paused })
  else
    (false, w)

/-- base_worker.py `resume`: PAUSED → RUNNING, otherwise a no-op returning false. -/
def BaseWorker.resume (w : BaseWorker) : Bool × BaseWorker :=
  if w.state = .paused then
    (true, { w with state := .running })
  else
    (false, w)

/-- worker_manager.py `_handle_state_change`, the auto-restart branch: when
notified of the ERROR state it runs `worker.stop(wait=False)`,
`worker.error_count = 0`, `worker.start()`, ignoring both return values. -/
def WorkerManager.handleStateChange (w : BaseWorker) (state : WorkerState) : BaseWorker :=
  if state = .error then
    let w1 := (w.stop).2
    let w2 := { w1 with error_count := 0 }
    (w2.start).2
  else
    w

/-- Outcome of one `process_task` call as seen by the worker loop
(base_worker.py `_run`): a truthy result, a falsy result, or a raised
exception. -/
inductive HandlerOutcome where
  | ok
  | falsy
  | raises
deriving DecidableEq, Repr

/-- What one iteration of the `_run` loop did. -/
inductive StepOutcome where
  | exited
  | pausedWait
  | cooldownSleep
  | executed (e : QEntry)
  | emptyIdle
deriving DecidableEq, Repr

/-- Whether a loop iteration dequeued and executed a task. -/
def StepOutcome.isExecuted : StepOutcome → Bool
  | .executed _ => true
  | _ => false

/-- The dequeue-and-process part of `_run` (base_worker.py lines 146-183):
`queue.get` (Empty → continue), `process_task`, then the result/exception
handling including the consecutive-error accounting and the transition to
ERROR when `error_count ≥ max_errors`. -/
def BaseWorker.dequeueProcess (w : BaseWorker) (now : Nat) (h : HandlerOutcome) :
    StepOutcome × BaseWorker :=
  match w.queue with
  | [] => (.emptyIdle, w)
  | e :: rest =>
    match h with
    | .ok => (.executed e,
        { w with queue := rest, completed_tasks := w.completed_tasks + 1 })
    | .falsy => (.executed e,
        { w with queue := rest, failed_tasks := w.failed_tasks + 1 })
    | .raises => (.executed e,
        { w with
          queue := rest
          error_count := w.error_count + 1
          last_error_time := now
          failed_tasks := w.failed_tasks + 1
          state := if w.max_errors ≤ w.error_count + 1 then .error else w.state })

/-- One iteration of the `_run` loop (base_worker.py lines 133-183):
exit when `_stop_event` is set (i.e. state = STOPPED), block while paused,
sleep while the error cooldown is active, reset `error_count` once the
cooldown has elapsed, then dequeue and process. -/
def BaseWorker.runStep (w : BaseWorker) (now : Nat) (h : HandlerOutcome) :
    StepOutcome × BaseWorker :=
  if w.state = .stopped then
    (.exited, w)
  else if w.state = .paused then
    (.pausedWait, w)
  else if w.max_errors ≤ w.error_count then
    if now - w.last_error_time < w.error_cooldown then
      (.cooldownSleep, w)
    else
      ({ w with error_count := 0 }).dequeueProcess now h
  else
    w.dequeueProcess now h

/-- A worker that was stopped with an empty queue. -/
def stoppedWorker : BaseWorker :=
  { BaseWorker.init 100 with state := .stopped }

/-- A worker that has just entered the ERROR state after `max_errors = 5`
consecutive handler exceptions. -/
def erroredWorker : BaseWorker :=
  { BaseWorker.init 100 with
    state := .error
    error_count := 5
    last_error_time := 10
    failed_tasks := 5 }

/-- A worker in the ERROR state whose cooldown has started at time 0, with one
task still queued. -/
def erroredQueueWorker : BaseWorker :=
  { BaseWorker.init 100 with
    state := .error
    error_count := 5
    last_error_time := 0
    failed_tasks := 5
    queue := [⟨-1, 0, 7⟩] }

/-- api_request.py `RateLimiter`: token bucket with `rate` tokens per `per`
seconds; `tokens` and the timestamps are Python floats, modelled as ℚ. -/
structure RateLimiter where
  rate : ℚ
  per : ℚ
  tokens : ℚ
  last_update : ℚ
deriving DecidableEq, Repr

/-- api_request.py `RateLimiter.__init__(rate, per)` run at wall-clock time t0:
the bucket starts full (`tokens = rate`). -/
def RateLimiter.create (rate per t0 : ℚ) : RateLimiter :=
  { rate := rate, per := per, tokens := rate, last_update := t0 }

/-- The lazy refill at the top of `acquire`:
`min(self.rate, self.tokens + elapsed * (self.rate / self.per))`. -/
def RateLimiter.refilledTokens (s : RateLimiter) (now : ℚ) : ℚ :=
  min s.rate (s.tokens + (now - s.last_update) * (s.rate / s.per))

/-- api_request.py `RateLimiter.acquire(tokens)` called at wall-clock time
`now`: refill (clamped to `rate`), set `last_update = now`, then either deduct
`cost` and return wait 0, or return the wait `deficit * (per / rate)` without
deducting. -/
def RateLimiter.acquire (s : RateLimiter) (now cost : ℚ) : ℚ × RateLimiter :=
  if cost ≤ s.refilledTokens now then
    (0, { s with tokens := s.refilledTokens now - cost, last_update := now })
  else
    ((cost - s.refilledTokens now) * (s.per / s.rate),
      { s with tokens := s.refilledTokens now, last_update := now })

/-- Run a sequence of `acquire` calls; each op is (wall-clock time, cost). -/
def RateLimiter.acquireSeq (s : RateLimiter) (ops : List (ℚ × ℚ)) : RateLimiter :=
  ops.foldl (fun st op => (st.acquire op.1 op.2).2) s

/-- services/rate_limiter.py `TokenBucket`. -/
structure TokenBucket where
  capacity : ℚ
  refill_rate : ℚ
  tokens : ℚ
  last_refill : ℚ
deriving DecidableEq, Repr

/-- services/rate_limiter.py `TokenBucket.__init__` run at time t0: the bucket
starts full. -/
def TokenBucket.create (capacity refill_rate t0 : ℚ) : TokenBucket :=
  { capacity := capacity, refill_rate := refill_rate, tokens := capacity, last_refill := t0 }

/-- The lazy refill at the top of `consume`:
`min(self.capacity, self.tokens + elapsed * self.refill_rate)`. -/
def TokenBucket.refilledTokens (s : TokenBucket) (now : ℚ) : ℚ :=
  min s.capacity (s.tokens + (now - s.last_refill) * s.refill_rate)

/-- services/rate_limiter.py `TokenBucket.consume(tokens)` called at time
`now`: refill (clamped to `capacity`), set `last_refill = now`, then deduct
and return True if enough tokens, else return False without deducting. -/
def TokenBucket.consume (s : TokenBucket) (now cost : ℚ) : Bool × TokenBucket :=
  if cost ≤ s.refilledTokens now then
    (true, { s with tokens := s.refilledTokens now - cost, last_refill := now })
  else
    (false, { s with tokens := s.refilledTokens now, last_refill := now })

/-- Run a sequence of `consume` calls; each op is (wall-clock time, cost). -/
def TokenBucket.consumeSeq (s : TokenBucket) (ops : List (ℚ × ℚ)) : TokenBucket :=
  ops.foldl (fun st op => (st.consume op.1 op.2).2) s

/-- services/rate_limiter.py `CircuitBreaker` states: the source strings
'closed', 'open', 'half_open'. -/
inductive CBState where
  | closed
  | opened
  | halfOpen
deriving DecidableEq, Repr

/-- services/rate_limiter.py `CircuitBreaker.__init__` fields (the wall-clock
`last_failure_time` starts as `None`). -/
structure CircuitBreaker where
  failure_threshold : Nat
  recovery_timeout : ℚ
  failure_count : Nat
  last_failure_time : Option ℚ
  state : CBState
deriving DecidableEq, Repr

/-- `CircuitBreaker(failure_threshold, recovery_timeout)`: CLOSED with zero
failures. -/
def CircuitBreaker.create (threshold : Nat) (timeout : ℚ) : CircuitBreaker :=
  { failure_threshold := threshold
    recovery_timeout := timeout
    failure_count := 0
    last_failure_time := none
    state := .closed }

/-- What a `CircuitBreaker.call` returns to its caller: the wrapped function's
result, the wrapped function's re-raised exception, or the immediate
"Circuit breaker is OPEN" rejection. -/
inductive CBResult (R E : Type) where
  | ok (r : R)
  | err (e : E)
  | rejectedOpen
deriving DecidableEq, Repr

/-- One `call`'s full effect: the outcome, whether the wrapped function was
invoked at all, and the breaker afterwards. -/
structure CBCallOutcome (R E : Type) where
  result : CBResult R E
  invoked : Bool
  breaker : CircuitBreaker
deriving DecidableEq, Repr

/-- services/rate_limiter.py `CircuitBreaker.call(func)` at wall-clock time
`now`; `outcome` is what `func` would return/raise if invoked. Phase 1
(the first lock section): while OPEN, move to HALF_OPEN if
`now - last_failure_time > recovery_timeout`, else raise the circuit-open
exception without invoking. Phase 2: invoke; on success CLOSED+reset from
HALF_OPEN, or decrement a positive `failure_count`; on failure increment
`failure_count`, stamp `last_failure_time`, and go OPEN once
`failure_count ≥ failure_threshold`. -/
def CircuitBreaker.call (cb : CircuitBreaker) (now : ℚ) (outcome : Except E R) :
    CBCallOutcome R E :=
  let gate : Option CircuitBreaker :=
    match cb.state with
    | .opened =>
      match cb.last_failure_time with
      | some t =>
        if cb.recovery_timeout < now - t then some { cb with state := .halfOpen } else none
      | none => none
    | _ => some cb
  match gate with
  | none => { result := .rejectedOpen, invoked := false, breaker := cb }
  | some cb1 =>
    match outcome with
    | .ok r =>
      if cb1.state = .halfOpen then
        { result := .ok r, invoked := true,
          breaker := { cb1 with state := .closed, failure_count := 0 } }
      else if 0 < cb1.failure_count then
        { result := .ok r, invoked := true,
          breaker := { cb1 with failure_count := cb1.failure_count - 1 } }
      else
        { result := .ok r, invoked := true, breaker := cb1 }
    | .error e =>
      if cb1.failure_threshold ≤ cb1.failure_count + 1 then
        { result := .err e, invoked := true,
          breaker := { cb1 with
            failure_count := cb1.failure_count + 1
            last_failure_time := some now
            state := .opened } }
      else
        { result := .err e, invoked := true,
          breaker := { cb1 with
            failure_count := cb1.failure_count + 1
            last_failure_time := some now } }

/-- A sequence of consecutive calls whose wrapped function always raises `e`,
made at the given wall-clock times. -/
def CircuitBreaker.failSeq (cb : CircuitBreaker) (e : E) (times : List ℚ) : CircuitBreaker :=
  times.foldl (fun c t => (CircuitBreaker.call (R := Unit) c t (Except.error e)).breaker) cb

/-- api_request.py `APIRequestType`. -/
inductive APIRequestType where
  | generate_image
  | create_variation
  | edit_image
deriving DecidableEq, Repr

/-- The fields of api_request.py `APIRequest` that the retry logic reads or
writes: `n` (the token cost handed to the rate limiter), the mutable
`retry_count`, and `max_retries`. The prompt/size/model fields are opaque to
the retry logic, and callback invocations are recorded explicitly in the
output of the processing functions. -/
structure APIRequest where
  n : Nat
  retry_count : Nat
  max_retries : Nat
deriving DecidableEq, Repr

/-- A recorded invocation of `request.callback`: either the success result or
the error dict (whose `retries` entry is `request.retry_count`). -/
inductive CallbackCall (R E : Type) where
  | success (r : R)
  | failure (e : E) (retries : Nat)
deriving DecidableEq, Repr

/-- What one `process_task` call did with the request. -/
inductive ProcessStep (R E : Type) where
  | requeued (req : APIRequest)
  | succeeded (r : R)
  | failedTerminal (e : E) (retries : Nat)
deriving DecidableEq, Repr

/-- api_request.py `process_task` lines 99-145 (after the rate-limiter wait):
`outcome` is what the dispatched `_generate_image`/`_create_variation`/
`_edit_image` call returns or raises. On success the callback fires with the
result. On any exception: if `retry_count < max_retries` the request is
re-queued at HIGH priority with `retry_count + 1` and no callback fires;
otherwise the callback fires with the error result carrying
`retries = retry_count`. -/
def processTaskCore (req : APIRequest) (outcome : Except E R) :
    ProcessStep R E × List (CallbackCall R E) :=
  match outcome with
  | .ok r => (.succeeded r, [.success r])
  | .error e =>
    if req.retry_count < req.max_retries then
      (.requeued { req with retry_count := req.retry_count + 1 }, [])
    else
      (.failedTerminal e req.retry_count, [.failure e req.retry_count])

/-- api_request.py `process_task` in full: `rate_limiter.acquire(request.n)`
first (the worker sleeps for the returned wait, which affects no state here),
then the dispatch/retry logic of `processTaskCore`. -/
def APIRequestWorker.process_task (rl : RateLimiter) (now : ℚ) (req : APIRequest)
    (outcome : Except E R) : RateLimiter × ProcessStep R E × List (CallbackCall R E) :=
  ((rl.acquire now (req.n : ℚ)).2, processTaskCore req outcome)

/-- The whole lifetime of one logical request: `process_task` runs, and each
re-queued request is dequeued and processed again by the worker loop (assuming
the re-queue's `add_task` finds room, as in the spec's scenario); the k-th
handler invocation has outcome `outcomes k`. Returns the total number of
handler invocations and every callback invocation in order. Its branches are
those of `processTaskCore`, proved to agree in `runLifetime_step`. -/
def runLifetime (outcomes : Nat → Except E R) (k : Nat) (req : APIRequest) :
    Nat × List (CallbackCall R E) :=
  match outcomes k with
  | .ok r => (1, [.success r])
  | .error e =>
    if h : req.retry_count < req.max_retries then
      let rest := runLifetime outcomes (k + 1) { req with retry_count := req.retry_count + 1 }
      (rest.1 + 1, rest.2)
    else
      (1, [.failure e req.retry_count])
termination_by req.max_retries - req.retry_count
decreasing_by simp; omega

/-- The failure classes of the network boundary in the spec (§6). The source
raises a plain `Exception` for every non-200 response, so the class reaches
`process_task` only as opaque exception payload. -/
inductive FailureClass where
  | rate_limited
  | server_error
  | client_error
  | network_error
deriving DecidableEq, Repr

/-- One entry of api_request.py's `request_history` (the fields
`get_request_stats` reads). -/
structure RequestRecord where
  request_type : APIRequestType
  success : Bool
  retry_count : Nat
deriving DecidableEq, Repr

/-- The dict returned by api_request.py `get_request_stats` (the
`rate_limit_tokens` entry, read directly off the rate limiter, is not part of
the history computation modelled here). -/
structure RequestStats where
  total_requests : Nat
  success_rate : ℚ
  requests_by_type : APIRequestType → Nat
  average_retry_count : ℚ

/-- api_request.py `get_request_stats`: an empty history short-circuits to the
all-zero snapshot; otherwise `success_rate = successful / total` and
`average_retry_count = total_retries / total`, each guarded by `if total > 0`. -/
def get_request_stats (history : List RequestRecord) : RequestStats :=
  if history.isEmpty then
    { total_requests := 0
      success_rate := 0
      requests_by_type := fun _ => 0
      average_retry_count := 0 }
  else
    let total := history.length
    let successful := (history.filter (fun r => r.success)).length
    let total_retries : Nat := history.foldl (fun acc r => acc + r.retry_count) 0
    { total_requests := total
      success_rate := if 0 < total then (successful : ℚ) / total else 0
      requests_by_type := fun ty => (history.filter (fun r => r.request_type = ty)).length
      average_retry_count := if 0 < total then (total_retries : ℚ) / total else 0 }

theorem dequeueSeq_eq (l : List QEntry) : dequeueSeq l = l := by
  induction l with
  | nil => rfl
  | cons x xs ih => simp [dequeueSeq, ih]

theorem keyLE_total (a b : QEntry) : keyLE a b ∨ keyLE b a := by
  unfold keyLE
  omega

theorem keyLE_trans {a b c : QEntry} (h1 : keyLE a b) (h2 : keyLE b c) : keyLE a c := by
  unfold keyLE at *
  omega

theorem not_keyLE_of_keyLT {a b : QEntry} (h : keyLT a b) : ¬ keyLE b a := by
  unfold keyLT at h
  unfold keyLE
  omega

theorem mem_pqInsert {e y : QEntry} {l : List QEntry} :
    y ∈ pqInsert e l ↔ y = e ∨ y ∈ l := by
  induction l with
  | nil => simp [pqInsert]
  | cons x xs ih =>
    by_cases hex : keyLE e x
    · simp [pqInsert, hex]
    · simp [pqInsert, hex, ih]
      tauto

theorem pairwise_pqInsert {e : QEntry} {l : List QEntry}
    (h : l.Pairwise keyLE) : (pqInsert e l).Pairwise keyLE := by
  induction l with
  | nil => simp [pqInsert]
  | cons x xs ih =>
    rw [List.pairwise_cons] at h
    by_cases hex : keyLE e x
    · rw [pqInsert, if_pos hex]
      refine List.pairwise_cons.2 ⟨?_, List.pairwise_cons.2 ⟨h.1, h.2⟩⟩
      intro y hy
      rcases List.mem_cons.1 hy with hy | hy
      · exact hy ▸ hex
      · exact keyLE_trans hex (h.1 y hy)
    · rw [pqInsert, if_neg hex]
      refine List.pairwise_cons.2 ⟨?_, ih h.2⟩
      intro y hy
      rcases mem_pqInsert.1 hy with hy | hy
      · rcases keyLE_total e x with hx | hx
        · exact absurd hx hex
        · exact hy ▸ hx
      · exact h.1 y hy

theorem pairwise_add_task {w : BaseWorker} (h : w.queue.Pairwise keyLE)
    (p : WorkerPriority) (ts id : Nat) :
    ((w.add_task p ts id).2).queue.Pairwise keyLE := by
  unfold BaseWorker.add_task
  by_cases hfull : w.max_queue_size ≤ w.queue.length
  · simpa [hfull] using h
  · simpa [hfull] using pairwise_pqInsert h

theorem pairwise_enqueueAll_aux (ps : List (Nat × WorkerPriority)) :
    ∀ w : BaseWorker, w.queue.Pairwise keyLE →
      ((ps.foldl (fun acc ip => (acc.add_task ip.2 ip.1 ip.1).2) w)).queue.Pairwise keyLE := by
  induction ps with
  | nil => intro w h; simpa using h
  | cons p rest ih =>
    intro w h
    exact ih _ (pairwise_add_task h p.2 p.1 p.1)

theorem pairwise_workerDequeueOrder (maxq : Nat) (reqs : List WorkerPriority) :
    (workerDequeueOrder maxq reqs).Pairwise keyLE := by
  unfold workerDequeueOrder BaseWorker.enqueueAll
  rw [dequeueSeq_eq]
  exact pairwise_enqueueAll_aux reqs.enum (BaseWorker.init maxq) (by simp [BaseWorker.init])

theorem fin_lt_of_keyLT (maxq : Nat) (reqs : List WorkerPriority)
    (i j : Fin (workerDequeueOrder maxq reqs).length)
    (h : keyLT ((workerDequeueOrder maxq reqs).get i) ((workerDequeueOrder maxq reqs).get j)) :
    (i : Nat) < j := by
  by_contra hn
  push_neg at hn
  rcases Nat.lt_or_ge (j : Nat) (i : Nat) with hji | hij
  · have hpw := List.pairwise_iff_get.1 (pairwise_workerDequeueOrder maxq reqs) j i hji
    exact not_keyLE_of_keyLT h hpw
  · have : (i : Nat) = j := Nat.le_antisymm hij hn
    have hij' : i = j := Fin.ext this
    subst hij'
    unfold keyLT at h
    omega

/-- Claim C1: for every sequence of `add_task` calls on one worker, tasks are
dequeued strictly by (higher priority first, then earlier insertion among
equal priorities): an entry submitted at priority P1 precedes in the dequeue
order every entry at a lower priority P2, and among equal priorities the entry
enqueued earlier (smaller timestamp) is dequeued first. -/
theorem add_task_dequeue_priority_fifo (maxq : Nat) (reqs : List WorkerPriority)
    (i j : Fin (workerDequeueOrder maxq reqs).length)
    (a b : QEntry)
    (ha : (workerDequeueOrder maxq reqs).get i = a)
    (hb : (workerDequeueOrder maxq reqs).get j = b) :
    (∀ p1 p2 : WorkerPriority, a.negPriority = -(p1.value : Int) →
        b.negPriority = -(p2.value : Int) → p2.value < p1.value → (i : Nat) < j)
    ∧ (a.negPriority = b.negPriority → a.timestamp < b.timestamp → (i : Nat) < j) := by
  subst ha
  subst hb
  constructor
  · intro p1 p2 hp1 hp2 hlt
    refine fin_lt_of_keyLT maxq reqs i j (Or.inl ?_)
    rw [hp1, hp2]
    omega
  · intro hpri hts
    exact fin_lt_of_keyLT maxq reqs i j (Or.inr ⟨hpri, hts⟩)

/-- Witness for C1: submitting [LOW, HIGH, NORMAL] to an idle worker, the HIGH
task (dequeue position 0) comes strictly before the LOW task (position 2). -/
theorem add_task_dequeue_priority_fifo_witness :
    ((⟨0, by decide⟩ : Fin (workerDequeueOrder 100
        [WorkerPriority.low, WorkerPriority.high, WorkerPriority.normal]).length) : Nat) <
      ((⟨2, by decide⟩ : Fin (workerDequeueOrder 100
        [WorkerPriority.low, WorkerPriority.high, WorkerPriority.normal]).length) : Nat) :=
  (add_task_dequeue_priority_fifo 100
      [WorkerPriority.low, WorkerPriority.high, WorkerPriority.normal]
      ⟨0, by decide⟩ ⟨2, by decide⟩ ⟨-2, 1, 1⟩ ⟨0, 0, 0⟩ (by decide) (by decide)).1
    WorkerPriority.high WorkerPriority.low (by decide) (by decide) (by decide)

/-- Claim C5 evaluated (code bug): the manager's recovery handler, applied to a
worker in the ERROR state, does reset `error_count` to 0, but both
`stop()` (which requires RUNNING/PAUSED) and `start()` (which requires IDLE)
fail their state guards, so the worker's state remains ERROR instead of
becoming RUNNING. -/
theorem manager_error_recovery_eval :
    (WorkerManager.handleStateChange erroredWorker WorkerState.error).error_count = 0
    ∧ (WorkerManager.handleStateChange erroredWorker WorkerState.error).state = WorkerState.error
    ∧ (WorkerManager.handleStateChange erroredWorker WorkerState.error).state ≠ WorkerState.running := by
  decide

/-- Counterexample for C9: `add_task` does not consult the worker's state, so a
STOPPED worker still accepts tasks; and a worker whose error cooldown has
elapsed dequeues and executes a task while its state is still ERROR, not
RUNNING. -/
theorem add_task_state_counterexample :
    (stoppedWorker.add_task WorkerPriority.normal 0 0).1 = true
    ∧ stoppedWorker.state = WorkerState.stopped
    ∧ ((erroredQueueWorker.runStep 60 HandlerOutcome.ok).1).isExecuted = true
    ∧ erroredQueueWorker.state ≠ WorkerState.running := by
  decide

/-- Claim C9 as amended: `add_task` succeeds exactly when the queue is not
full, in every worker state (including STOPPED); and a loop iteration dequeues
and executes a task exactly when the worker is neither STOPPED nor PAUSED, the
error cooldown does not forbid it (fewer than `max_errors` consecutive errors,
or the cooldown has elapsed — in which case execution happens even in the
ERROR state), and the queue is nonempty. -/
theorem add_task_and_dispatch_conditions :
    (∀ (w : BaseWorker) (p : WorkerPriority) (ts id : Nat),
        (w.add_task p ts id).1 = true ↔ w.queue.length < w.max_queue_size)
    ∧ (∀ (w : BaseWorker) (now : Nat) (h : HandlerOutcome),
        ((w.runStep now h).1).isExecuted = true ↔
          (w.state ≠ .stopped ∧ w.state ≠ .paused ∧
            (w.error_count < w.max_errors ∨ w.error_cooldown ≤ now - w.last_error_time) ∧
            w.queue ≠ [])) := by
  constructor
  · intro w p ts id
    unfold BaseWorker.add_task
    by_cases hf : w.max_queue_size ≤ w.queue.length
    · simp [hf]
      try omega
    · simp [hf]
      try omega
  · intro w now h
    unfold BaseWorker.runStep BaseWorker.dequeueProcess
    by_cases h1 : w.state = .stopped
    · simp [h1, StepOutcome.isExecuted]
    · by_cases h2 : w.state = .paused
      · simp [h1, h2, StepOutcome.isExecuted]
      · by_cases h3 : w.max_errors ≤ w.error_count
        · by_cases h4 : now - w.last_error_time < w.error_cooldown
          · simp [h1, h2, h3, h4, StepOutcome.isExecuted]
            try omega
          · cases hq : w.queue with
            | nil =>
              simp [h1, h2, h3, h4, hq, StepOutcome.isExecuted]
              try omega
            | cons e rest =>
              cases h <;> simp [h1, h2, h3, h4, hq, StepOutcome.isExecuted] <;> try omega
        · cases hq : w.queue with
          | nil =>
            simp [h1, h2, h3, hq, StepOutcome.isExecuted]
            try omega
          | cons e rest =>
            cases h <;> simp [h1, h2, h3, hq, StepOutcome.isExecuted] <;> try omega

theorem acquire_step_bounds (s : RateLimiter) (now cost : ℚ)
    (hrate : 0 < s.rate) (hper : 0 < s.per) (hcost : 0 ≤ cost)
    (hnow : s.last_update ≤ now) (h0 : 0 ≤ s.tokens) :
    0 ≤ ((s.acquire now cost).2).tokens ∧ ((s.acquire now cost).2).tokens ≤ s.rate ∧
      ((s.acquire now cost).2).rate = s.rate ∧ ((s.acquire now cost).2).per = s.per ∧
      ((s.acquire now cost).2).last_update = now := by
  have hre0 : 0 ≤ s.refilledTokens now :=
    le_min hrate.le
      (add_nonneg h0 (mul_nonneg (sub_nonneg.2 hnow) (div_nonneg hrate.le hper.le)))
  have hre1 : s.refilledTokens now ≤ s.rate := min_le_left _ _
  unfold RateLimiter.acquire
  by_cases hc : cost ≤ s.refilledTokens now
  · rw [if_pos hc]
    exact ⟨by simp; linarith, by simp; linarith, rfl, rfl, rfl⟩
  · rw [if_neg hc]
    exact ⟨hre0, hre1, rfl, rfl, rfl⟩

theorem consume_step_bounds (s : TokenBucket) (now cost : ℚ)
    (hrr : 0 ≤ s.refill_rate) (hcap : 0 ≤ s.capacity) (hcost : 0 ≤ cost)
    (hnow : s.last_refill ≤ now) (h0 : 0 ≤ s.tokens) :
    0 ≤ ((s.consume now cost).2).tokens ∧ ((s.consume now cost).2).tokens ≤ s.capacity ∧
      ((s.consume now cost).2).capacity = s.capacity ∧
      ((s.consume now cost).2).refill_rate = s.refill_rate ∧
      ((s.consume now cost).2).last_refill = now := by
  have hre0 : 0 ≤ s.refilledTokens now :=
    le_min hcap (add_nonneg h0 (mul_nonneg (sub_nonneg.2 hnow) hrr))
  have hre1 : s.refilledTokens now ≤ s.capacity := min_le_left _ _
  unfold TokenBucket.consume
  by_cases hc : cost ≤ s.refilledTokens now
  · rw [if_pos hc]
    exact ⟨by simp; linarith, by simp; linarith, rfl, rfl, rfl⟩
  · rw [if_neg hc]
    exact ⟨hre0, hre1, rfl, rfl, rfl⟩

/-- Claim C4: for every sequence of `acquire` calls on api_request.py's
`RateLimiter` (made with nonnegative costs at monotonically nondecreasing
wall-clock times), and likewise for every sequence of `consume` calls on
services/rate_limiter.py's `TokenBucket`, the `tokens` field stays within
[0, capacity]: no call leaves it negative, and the lazy refill never raises
it above the capacity. -/
theorem tokens_stay_in_range :
    (∀ (s : RateLimiter) (ops : List (ℚ × ℚ)),
        0 < s.rate → 0 < s.per → (∀ op ∈ ops, 0 ≤ op.2) →
        (s.last_update :: ops.map Prod.fst).Chain' (· ≤ ·) →
        0 ≤ s.tokens → s.tokens ≤ s.rate →
        0 ≤ (s.acquireSeq ops).tokens ∧ (s.acquireSeq ops).tokens ≤ s.rate)
    ∧ (∀ (s : TokenBucket) (ops : List (ℚ × ℚ)),
        0 ≤ s.refill_rate → 0 ≤ s.capacity → (∀ op ∈ ops, 0 ≤ op.2) →
        (s.last_refill :: ops.map Prod.fst).Chain' (· ≤ ·) →
        0 ≤ s.tokens → s.tokens ≤ s.capacity →
        0 ≤ (s.consumeSeq ops).tokens ∧ (s.consumeSeq ops).tokens ≤ s.capacity) := by
  constructor
  · intro s ops
    induction ops generalizing s with
    | nil =>
      intro _ _ _ _ h5 h6
      exact ⟨h5, h6⟩
    | cons op rest ih =>
      intro hrate hper hcost hchain h0 h1
      simp only [List.map_cons] at hchain
      have hnow : s.last_update ≤ op.1 := (List.chain'_cons.1 hchain).1
      obtain ⟨g0, g1, grate, gper, glast⟩ :=
        acquire_step_bounds s op.1 op.2 hrate hper (hcost op (by simp)) hnow h0
      rw [show s.acquireSeq (op :: rest) = ((s.acquire op.1 op.2).2).acquireSeq rest from rfl]
      have hres := ih ((s.acquire op.1 op.2).2)
        (by rw [grate]; exact hrate) (by rw [gper]; exact hper)
        (fun o ho => hcost o (List.mem_cons_of_mem _ ho))
        (by rw [glast]; exact (List.chain'_cons.1 hchain).2)
        g0 (by rw [grate]; exact g1)
      rw [grate] at hres
      exact hres
  · intro s ops
    induction ops generalizing s with
    | nil =>
      intro _ _ _ _ h5 h6
      exact ⟨h5, h6⟩
    | cons op rest ih =>
      intro hrr hcap hcost hchain h0 h1
      simp only [List.map_cons] at hchain
      have hnow : s.last_refill ≤ op.1 := (List.chain'_cons.1 hchain).1
      obtain ⟨g0, g1, gcap, grr, glast⟩ :=
        consume_step_bounds s op.1 op.2 hrr hcap (hcost op (by simp)) hnow h0
      rw [show s.consumeSeq (op :: rest) = ((s.consume op.1 op.2).2).consumeSeq rest from rfl]
      have hres := ih ((s.consume op.1 op.2).2)
        (by rw [grr]; exact hrr) (by rw [gcap]; exact hcap)
        (fun o ho => hcost o (List.mem_cons_of_mem _ ho))
        (by rw [glast]; exact (List.chain'_cons.1 hchain).2)
        g0 (by rw [gcap]; exact g1)
      rw [gcap] at hres
      exact hres

/-- Witness for C4: a concrete two-call sequence on each bucket. -/
theorem tokens_stay_in_range_witness :
    (0 ≤ ((RateLimiter.create 5 60 0).acquireSeq [(0, 1), (2, 1)]).tokens
      ∧ ((RateLimiter.create 5 60 0).acquireSeq [(0, 1), (2, 1)]).tokens
          ≤ (RateLimiter.create 5 60 0).rate)
    ∧ (0 ≤ ((TokenBucket.create 5 (5 / 60) 0).consumeSeq [(0, 1), (2, 1)]).tokens
      ∧ ((TokenBucket.create 5 (5 / 60) 0).consumeSeq [(0, 1), (2, 1)]).tokens
          ≤ (TokenBucket.create 5 (5 / 60) 0).capacity) :=
  ⟨tokens_stay_in_range.1 (RateLimiter.create 5 60 0) [(0, 1), (2, 1)]
      (by norm_num [RateLimiter.create]) (by norm_num [RateLimiter.create])
      (by intro op hop
          rcases (by simpa using hop : op = ((0 : ℚ), (1 : ℚ)) ∨ op = ((2 : ℚ), (1 : ℚ)))
            with h | h <;> simp [h])
      (by norm_num [RateLimiter.create, List.chain'_cons])
      (by norm_num [RateLimiter.create]) (by norm_num [RateLimiter.create]),
    tokens_stay_in_range.2 (TokenBucket.create 5 (5 / 60) 0) [(0, 1), (2, 1)]
      (by norm_num [TokenBucket.create]) (by norm_num [TokenBucket.create])
      (by intro op hop
          rcases (by simpa using hop : op = ((0 : ℚ), (1 : ℚ)) ∨ op = ((2 : ℚ), (1 : ℚ)))
            with h | h <;> simp [h])
      (by norm_num [TokenBucket.create, List.chain'_cons])
      (by norm_num [TokenBucket.create]) (by norm_num [TokenBucket.create])⟩

theorem refilled_mk_example : (RateLimiter.mk 5 60 0 0).refilledTokens 6 = 1 / 2 := by
  unfold RateLimiter.refilledTokens
  rw [show ((RateLimiter.mk 5 60 0 0).tokens +
      (6 - (RateLimiter.mk 5 60 0 0).last_update) *
        ((RateLimiter.mk 5 60 0 0).rate / (RateLimiter.mk 5 60 0 0).per)) = 1 / 2 by norm_num]
  rw [show (RateLimiter.mk 5 60 0 0).rate = 5 from rfl]
  rw [min_eq_right (by norm_num : (1 : ℚ) / 2 ≤ 5)]

/-- Counterexample for C8: an `acquire` call that is rejected (too few tokens)
still mutates the limiter: the lazy refill raises `tokens` and advances
`last_update` before the rejection is decided. Here a limiter with rate 5 per
60s, 0 tokens at time 0, is asked for 1 token at time 6: the call returns a
positive wait yet `tokens` becomes 1/2 ≠ 0 and `last_update` becomes 6 ≠ 0. -/
theorem acquire_reject_mutates_state :
    0 < ((RateLimiter.mk 5 60 0 0).acquire 6 1).1
    ∧ ((RateLimiter.mk 5 60 0 0).acquire 6 1).2.tokens ≠ (RateLimiter.mk 5 60 0 0).tokens
    ∧ ((RateLimiter.mk 5 60 0 0).acquire 6 1).2.last_update
        ≠ (RateLimiter.mk 5 60 0 0).last_update := by
  unfold RateLimiter.acquire
  rw [refilled_mk_example]
  rw [if_neg (by norm_num : ¬((1 : ℚ) ≤ 1 / 2))]
  refine ⟨by norm_num, by norm_num, by norm_num⟩

/-- Claim C8 as amended: when `acquire(cost)` finds fewer tokens than `cost`
after the lazy refill, it returns the wait time `deficit * (per / rate)` and
deducts nothing — but the call does mutate the limiter by the refill itself:
`tokens` is set to the refilled value (never below its old value) and
`last_update` is advanced to `now`; `rate` and `per` are unchanged. -/
theorem acquire_reject_no_deduction (s : RateLimiter) (now cost : ℚ)
    (hrate : 0 < s.rate) (hper : 0 < s.per) (hnow : s.last_update ≤ now)
    (htop : s.tokens ≤ s.rate) (hrej : s.refilledTokens now < cost) :
    (s.acquire now cost).1 = (cost - s.refilledTokens now) * (s.per / s.rate)
    ∧ (s.acquire now cost).2.tokens = s.refilledTokens now
    ∧ s.tokens ≤ (s.acquire now cost).2.tokens
    ∧ (s.acquire now cost).2.last_update = now
    ∧ (s.acquire now cost).2.rate = s.rate
    ∧ (s.acquire now cost).2.per = s.per := by
  have hnc : ¬ cost ≤ s.refilledTokens now := not_le.2 hrej
  unfold RateLimiter.acquire
  rw [if_neg hnc]
  refine ⟨rfl, rfl, ?_, rfl, rfl, rfl⟩
  exact le_min htop
    (le_add_of_nonneg_right (mul_nonneg (sub_nonneg.2 hnow) (div_nonneg hrate.le hper.le)))

/-- Witness for the amended C8 at the counterexample's concrete input. -/
theorem acquire_reject_no_deduction_witness :
    ((RateLimiter.mk 5 60 0 0).acquire 6 1).1
        = (1 - (RateLimiter.mk 5 60 0 0).refilledTokens 6)
            * ((RateLimiter.mk 5 60 0 0).per / (RateLimiter.mk 5 60 0 0).rate)
    ∧ ((RateLimiter.mk 5 60 0 0).acquire 6 1).2.tokens
        = (RateLimiter.mk 5 60 0 0).refilledTokens 6
    ∧ (RateLimiter.mk 5 60 0 0).tokens ≤ ((RateLimiter.mk 5 60 0 0).acquire 6 1).2.tokens
    ∧ ((RateLimiter.mk 5 60 0 0).acquire 6 1).2.last_update = 6
    ∧ ((RateLimiter.mk 5 60 0 0).acquire 6 1).2.rate = (RateLimiter.mk 5 60 0 0).rate
    ∧ ((RateLimiter.mk 5 60 0 0).acquire 6 1).2.per = (RateLimiter.mk 5 60 0 0).per :=
  acquire_reject_no_deduction (RateLimiter.mk 5 60 0 0) 6 1
    (by norm_num) (by norm_num) (by norm_num) (by norm_num)
    (by rw [refilled_mk_example]; norm_num)

theorem call_fail_step {E : Type} (cb : CircuitBreaker) (now : ℚ) (e : E)
    (h : cb.state ≠ .opened) :
    (CircuitBreaker.call (R := Unit) cb now (Except.error e)).breaker =
      if cb.failure_threshold ≤ cb.failure_count + 1 then
        { cb with failure_count := cb.failure_count + 1, last_failure_time := some now,
                  state := .opened }
      else
        { cb with failure_count := cb.failure_count + 1, last_failure_time := some now } := by
  rcases cb with ⟨thr, rt, fc, lft, st⟩
  cases st
  case opened => exact absurd rfl h
  case closed =>
    by_cases hth : thr ≤ fc + 1 <;> simp [CircuitBreaker.call, hth]
  case halfOpen =>
    by_cases hth : thr ≤ fc + 1 <;> simp [CircuitBreaker.call, hth]

theorem failSeq_below {E : Type} (e : E) :
    ∀ (times : List ℚ) (cb : CircuitBreaker), cb.state = .closed →
      cb.failure_count + times.length < cb.failure_threshold →
      (cb.failSeq e times).state = .closed
      ∧ (cb.failSeq e times).failure_count = cb.failure_count + times.length := by
  intro times
  induction times with
  | nil =>
    intro cb hst _
    exact ⟨hst, by simp [CircuitBreaker.failSeq]⟩
  | cons t rest ih =>
    intro cb hst hlt
    simp only [List.length_cons] at hlt
    have hnotopen : cb.state ≠ .opened := by simp [hst]
    have hth : ¬ cb.failure_threshold ≤ cb.failure_count + 1 := by omega
    rw [show cb.failSeq e (t :: rest)
        = ((CircuitBreaker.call (R := Unit) cb t (Except.error e)).breaker).failSeq e rest
      from rfl]
    rw [call_fail_step cb t e hnotopen, if_neg hth]
    have hres := ih { cb with failure_count := cb.failure_count + 1, last_failure_time := some t }
      hst (by show cb.failure_count + 1 + rest.length < cb.failure_threshold; omega)
    refine ⟨hres.1, ?_⟩
    rw [hres.2]
    show cb.failure_count + 1 + rest.length = cb.failure_count + (t :: rest).length
    simp
    omega

theorem failSeq_reach {E : Type} (e : E) :
    ∀ (times : List ℚ) (cb : CircuitBreaker), cb.state = .closed →
      cb.failure_count + times.length = cb.failure_threshold → times ≠ [] →
      (cb.failSeq e times).state = .opened := by
  intro times
  induction times with
  | nil =>
    intro cb _ _ hne
    exact absurd rfl hne
  | cons t rest ih =>
    intro cb hst heq _
    simp only [List.length_cons] at heq
    have hnotopen : cb.state ≠ .opened := by simp [hst]
    rw [show cb.failSeq e (t :: rest)
        = ((CircuitBreaker.call (R := Unit) cb t (Except.error e)).breaker).failSeq e rest
      from rfl]
    rw [call_fail_step cb t e hnotopen]
    by_cases hrest : rest = []
    · subst hrest
      rw [if_pos (by simp at heq; omega)]
      rfl
    · have hlen : 0 < rest.length := List.length_pos.2 hrest
      rw [if_neg (by omega)]
      exact ih { cb with failure_count := cb.failure_count + 1, last_failure_time := some t }
        hst (by show cb.failure_count + 1 + rest.length = cb.failure_threshold; omega) hrest

/-- Claim C3: starting CLOSED with zero failures, after exactly
`failure_threshold` consecutive failing calls the breaker is OPEN (and with
fewer it is still CLOSED); and every call made while OPEN when
`now - last_failure_time` has not exceeded `recovery_timeout` is rejected with
the circuit-open failure without the wrapped function being invoked, and
leaves the breaker unchanged. -/
theorem circuit_opens_at_threshold :
    (∀ (E : Type) (e : E) (thr : Nat) (timeout : ℚ) (times : List ℚ),
        0 < thr → times.length = thr →
        ((CircuitBreaker.create thr timeout).failSeq e times).state = .opened)
    ∧ (∀ (E : Type) (e : E) (thr : Nat) (timeout : ℚ) (times : List ℚ),
        times.length < thr →
        ((CircuitBreaker.create thr timeout).failSeq e times).state = .closed)
    ∧ (∀ (R E : Type) (outcome : Except E R) (cb : CircuitBreaker) (now t : ℚ),
        cb.state = .opened → cb.last_failure_time = some t →
        now - t ≤ cb.recovery_timeout →
        CircuitBreaker.call cb now outcome =
          { result := .rejectedOpen, invoked := false, breaker := cb }) := by
  refine ⟨?_, ?_, ?_⟩
  · intro E e thr timeout times hthr hlen
    refine failSeq_reach e times (CircuitBreaker.create thr timeout) rfl
      (by show 0 + times.length = thr; omega) ?_
    intro hn
    subst hn
    simp at hlen
    omega
  · intro E e thr timeout times hlen
    exact (failSeq_below e times (CircuitBreaker.create thr timeout) rfl
      (by show 0 + times.length < thr; omega)).1
  · intro R E outcome cb now t h1 h2 h3
    rcases cb with ⟨thr, rt, fc, lft, st⟩
    replace h1 : st = CBState.opened := h1
    replace h2 : lft = some t := h2
    replace h3 : now - t ≤ rt := h3
    subst h1
    subst h2
    simp only [CircuitBreaker.call]
    rw [if_neg (not_lt.2 h3)]

/-- Witness for C3: threshold 3, three failing calls at times 0,1,2 open the
breaker; a call at time 10 against an open breaker whose last failure was at
time 2 (timeout 60) is rejected without invocation. -/
theorem circuit_opens_at_threshold_witness :
    ((CircuitBreaker.create 3 60).failSeq () [0, 1, 2]).state = CBState.opened
    ∧ CircuitBreaker.call (CircuitBreaker.mk 3 60 3 (some 2) CBState.opened) 10
        (Except.ok (0 : Nat) (ε := Unit))
      = { result := .rejectedOpen, invoked := false,
          breaker := CircuitBreaker.mk 3 60 3 (some 2) CBState.opened } :=
  ⟨circuit_opens_at_threshold.1 Unit () 3 60 [0, 1, 2] (by norm_num) (by simp),
    circuit_opens_at_threshold.2.2 Nat Unit (Except.ok 0)
      (CircuitBreaker.mk 3 60 3 (some 2) CBState.opened) 10 2 rfl rfl (by norm_num)⟩

/-- Claim C6: an OPEN breaker whose cooldown has elapsed
(`now - last_failure_time > recovery_timeout`) lets the next call invoke the
wrapped function (the HALF_OPEN trial); if that trial succeeds the breaker is
CLOSED with `failure_count = 0`; and a success while already CLOSED keeps it
CLOSED and decrements `failure_count` toward 0 rather than resetting it. -/
theorem circuit_half_open_recovery :
    (∀ (R E : Type) (outcome : Except E R) (cb : CircuitBreaker) (now t : ℚ),
        cb.state = .opened → cb.last_failure_time = some t →
        cb.recovery_timeout < now - t →
        (CircuitBreaker.call cb now outcome).invoked = true)
    ∧ (∀ (R E : Type) (r : R) (cb : CircuitBreaker) (now t : ℚ),
        cb.state = .opened → cb.last_failure_time = some t →
        cb.recovery_timeout < now - t →
        (CircuitBreaker.call cb now (Except.ok r) : CBCallOutcome R E).breaker.state = .closed
        ∧ (CircuitBreaker.call cb now (Except.ok r) : CBCallOutcome R E).breaker.failure_count
            = 0)
    ∧ (∀ (R E : Type) (r : R) (cb : CircuitBreaker) (now : ℚ),
        cb.state = .closed →
        (CircuitBreaker.call cb now (Except.ok r) : CBCallOutcome R E).breaker.state = .closed
        ∧ (CircuitBreaker.call cb now (Except.ok r) : CBCallOutcome R E).breaker.failure_count
            = cb.failure_count - 1) := by
  refine ⟨?_, ?_, ?_⟩
  · intro R E outcome cb now t h1 h2 h3
    rcases cb with ⟨thr, rt, fc, lft, st⟩
    replace h1 : st = CBState.opened := h1
    replace h2 : lft = some t := h2
    replace h3 : rt < now - t := h3
    subst h1
    subst h2
    cases outcome with
    | ok r => simp [CircuitBreaker.call, h3]
    | error e =>
      simp only [CircuitBreaker.call]
      rw [if_pos h3]
      by_cases hth : thr ≤ fc + 1 <;> simp [hth]
  · intro R E r cb now t h1 h2 h3
    rcases cb with ⟨thr, rt, fc, lft, st⟩
    replace h1 : st = CBState.opened := h1
    replace h2 : lft = some t := h2
    replace h3 : rt < now - t := h3
    subst h1
    subst h2
    constructor <;> simp [CircuitBreaker.call, h3]
  · intro R E r cb now h1
    rcases cb with ⟨thr, rt, fc, lft, st⟩
    replace h1 : st = CBState.closed := h1
    subst h1
    by_cases hfc : 0 < fc
    · constructor <;> simp [CircuitBreaker.call, hfc]
    · have hfc0 : fc = 0 := by omega
      subst hfc0
      constructor <;> simp [CircuitBreaker.call]

/-- Witness for C6 at concrete inputs: trial succeeds after the cooldown, and
a success while CLOSED decrements the failure count from 2 to 1. -/
theorem circuit_half_open_recovery_witness :
    (CircuitBreaker.call (CircuitBreaker.mk 3 60 3 (some 0) CBState.opened) 100
        (Except.ok (0 : Nat) (ε := Unit))).invoked = true
    ∧ (CircuitBreaker.call (CircuitBreaker.mk 3 60 3 (some 0) CBState.opened) 100
        (Except.ok (0 : Nat) (ε := Unit))).breaker.state = CBState.closed
    ∧ (CircuitBreaker.call (CircuitBreaker.mk 3 60 2 none CBState.closed) 5
        (Except.ok (0 : Nat) (ε := Unit))).breaker.failure_count = 2 - 1 :=
  ⟨circuit_half_open_recovery.1 Nat Unit (Except.ok 0)
      (CircuitBreaker.mk 3 60 3 (some 0) CBState.opened) 100 0 rfl rfl (by norm_num),
    (circuit_half_open_recovery.2.1 Nat Unit 0
      (CircuitBreaker.mk 3 60 3 (some 0) CBState.opened) 100 0 rfl rfl (by norm_num)).1,
    (circuit_half_open_recovery.2.2 Nat Unit 0
      (CircuitBreaker.mk 3 60 2 none CBState.closed) 5 rfl).2⟩

theorem runLifetime_ok_eq (outcomes : Nat → Except E R) (k : Nat) (req : APIRequest) (r : R)
    (hout : outcomes k = Except.ok r) :
    runLifetime outcomes k req = (1, [CallbackCall.success r]) := by
  rw [runLifetime.eq_def, hout]

theorem runLifetime_retry_eq (outcomes : Nat → Except E R) (k : Nat) (req : APIRequest) (e : E)
    (hout : outcomes k = Except.error e) (h : req.retry_count < req.max_retries) :
    runLifetime outcomes k req =
      ((runLifetime outcomes (k + 1) { req with retry_count := req.retry_count + 1 }).1 + 1,
        (runLifetime outcomes (k + 1) { req with retry_count := req.retry_count + 1 }).2) := by
  rw [runLifetime.eq_def, hout]
  simp only [dif_pos h]

theorem runLifetime_exhausted_eq (outcomes : Nat → Except E R) (k : Nat) (req : APIRequest)
    (e : E) (hout : outcomes k = Except.error e) (h : ¬ req.retry_count < req.max_retries) :
    runLifetime outcomes k req = (1, [CallbackCall.failure e req.retry_count]) := by
  rw [runLifetime.eq_def, hout]
  simp only [dif_neg h]

theorem runLifetime_step (outcomes : Nat → Except E R) (k : Nat) (req : APIRequest) :
    runLifetime outcomes k req =
      match processTaskCore req (outcomes k) with
      | (.requeued req2, cbs) =>
        ((runLifetime outcomes (k + 1) req2).1 + 1, cbs ++ (runLifetime outcomes (k + 1) req2).2)
      | (.succeeded _, cbs) => (1, cbs)
      | (.failedTerminal _ _, cbs) => (1, cbs) := by
  cases hout : outcomes k with
  | ok r => simp [runLifetime_ok_eq outcomes k req r hout, processTaskCore]
  | error e =>
    by_cases h : req.retry_count < req.max_retries
    · simp [runLifetime_retry_eq outcomes k req e hout h, processTaskCore, h]
    · simp [runLifetime_exhausted_eq outcomes k req e hout h, processTaskCore, h]

theorem runLifetime_callbacks_length (outcomes : Nat → Except E R) :
    ∀ (gas k : Nat) (req : APIRequest), req.max_retries - req.retry_count ≤ gas →
      ((runLifetime outcomes k req).2).length = 1 := by
  intro gas
  induction gas with
  | zero =>
    intro k req hg
    cases hout : outcomes k with
    | ok r =>
      rw [runLifetime_ok_eq outcomes k req r hout]
      rfl
    | error e =>
      have h : ¬ req.retry_count < req.max_retries := by omega
      rw [runLifetime_exhausted_eq outcomes k req e hout h]
      rfl
  | succ g ih =>
    intro k req hg
    cases hout : outcomes k with
    | ok r =>
      rw [runLifetime_ok_eq outcomes k req r hout]
      rfl
    | error e =>
      by_cases h : req.retry_count < req.max_retries
      · rw [runLifetime_retry_eq outcomes k req e hout h]
        exact ih (k + 1) { req with retry_count := req.retry_count + 1 }
          (by show req.max_retries - (req.retry_count + 1) ≤ g; omega)
      · rw [runLifetime_exhausted_eq outcomes k req e hout h]
        rfl

theorem runLifetime_all_fail (outcomes : Nat → Except E R)
    (hfail : ∀ j, ∃ e, outcomes j = Except.error e) :
    ∀ (gas k : Nat) (req : APIRequest), req.max_retries - req.retry_count = gas →
      req.retry_count ≤ req.max_retries →
      (runLifetime outcomes k req).1 = req.max_retries - req.retry_count + 1
      ∧ ∃ e, (runLifetime outcomes k req).2 = [CallbackCall.failure e req.max_retries] := by
  intro gas
  induction gas with
  | zero =>
    intro k req hg hle
    obtain ⟨e, he⟩ := hfail k
    have h : ¬ req.retry_count < req.max_retries := by omega
    have hrc : req.retry_count = req.max_retries := by omega
    rw [runLifetime_exhausted_eq outcomes k req e he h]
    exact ⟨by omega, ⟨e, by rw [hrc]⟩⟩
  | succ g ih =>
    intro k req hg hle
    obtain ⟨e, he⟩ := hfail k
    have h : req.retry_count < req.max_retries := by omega
    have hrec := ih (k + 1) { req with retry_count := req.retry_count + 1 }
      (by show req.max_retries - (req.retry_count + 1) = g; omega)
      (by show req.retry_count + 1 ≤ req.max_retries; omega)
    rw [runLifetime_retry_eq outcomes k req e he h]
    refine ⟨?_, ?_⟩
    · rw [hrec.1]
      show req.max_retries - (req.retry_count + 1) + 1 + 1 = req.max_retries - req.retry_count + 1
      omega
    · obtain ⟨e2, he2⟩ := hrec.2
      exact ⟨e2, he2⟩

/-- Claim C2: over a request's whole lifetime the handler runs once per
attempt and `request.callback` fires exactly once. In particular (i) every
lifetime produces exactly one callback invocation; (ii) if the operation
always raises, a request with `max_retries = m` runs the handler m + 1 times
(1 original + m re-queued retries) and the single callback carries the
terminal error with `retries = m`; (iii) a request whose attempt succeeds has
its single callback carry that success result. -/
theorem process_task_callback_exactly_once (R E : Type) (outcomes : Nat → Except E R) (m : Nat) :
    (∀ (k : Nat) (req : APIRequest), ((runLifetime outcomes k req).2).length = 1)
    ∧ ((∀ j, ∃ e, outcomes j = Except.error e) →
        (runLifetime outcomes 0 ⟨1, 0, m⟩).1 = m + 1
        ∧ ∃ e, (runLifetime outcomes 0 ⟨1, 0, m⟩).2 = [CallbackCall.failure e m])
    ∧ (∀ (k : Nat) (req : APIRequest) (r : R), outcomes k = Except.ok r →
        runLifetime outcomes k req = (1, [CallbackCall.success r])) := by
  refine ⟨?_, ?_, ?_⟩
  · intro k req
    exact runLifetime_callbacks_length outcomes (req.max_retries - req.retry_count) k req le_rfl
  · intro hfail
    have h := runLifetime_all_fail outcomes hfail m 0 ⟨1, 0, m⟩ (by simp) (by simp)
    simpa using h
  · intro k req r hok
    exact runLifetime_ok_eq outcomes k req r hok

/-- Witness for C2: with an always-failing operation (error payload `()`) and
`max_retries = 2`, the handler runs 3 times; and an arbitrary lifetime fires
exactly one callback. -/
theorem process_task_callback_exactly_once_witness :
    (runLifetime (fun _ => (Except.error () : Except Unit Unit)) 0 ⟨1, 0, 2⟩).1 = 2 + 1
    ∧ ((runLifetime (fun _ => (Except.error () : Except Unit Unit)) 0 ⟨1, 0, 2⟩).2).length = 1 :=
  ⟨((process_task_callback_exactly_once Unit Unit (fun _ => Except.error ()) 2).2.1
      (fun _ => ⟨(), rfl⟩)).1,
    (process_task_callback_exactly_once Unit Unit (fun _ => Except.error ()) 2).1 0 ⟨1, 0, 2⟩⟩

/-- Counterexample for C7: a failure classified `client_error` on a request
with retry budget remaining (retry_count 0 < max_retries 3) is re-queued and
fires no callback at all, instead of surfacing the error callback immediately
without retry as the claim states. -/
theorem client_error_is_retried :
    processTaskCore (R := Unit) ⟨1, 0, 3⟩ (Except.error FailureClass.client_error)
      = (ProcessStep.requeued ⟨1, 1, 3⟩, []) := by
  rfl

/-- Claim C7 as amended: the retry decision ignores the failure's
classification entirely — for every class (rate_limited, server_error,
client_error, network_error alike) the request is re-queued exactly when
`retry_count < max_retries`, and the error callback fires exactly when the
retry budget is exhausted. -/
theorem retry_ignores_failure_class :
    ∀ (req : APIRequest) (e : FailureClass),
      ((∃ req2, (processTaskCore (R := Unit) req (Except.error e)).1 = ProcessStep.requeued req2)
        ↔ req.retry_count < req.max_retries)
      ∧ ((processTaskCore (R := Unit) req (Except.error e)).2 = []
        ↔ req.retry_count < req.max_retries) := by
  intro req e
  by_cases h : req.retry_count < req.max_retries <;>
    simp [processTaskCore, h]

/-- Claim C10: on an empty history `get_request_stats` returns the all-zero
snapshot (total 0, success_rate 0.0, average_retry_count 0.0) with no division
by zero; on every non-empty history the success rate equals the number of
successful records divided by the total number of records. -/
theorem get_request_stats_safe :
    ((get_request_stats []).total_requests = 0
      ∧ (get_request_stats []).success_rate = 0
      ∧ (get_request_stats []).average_retry_count = 0)
    ∧ (∀ history : List RequestRecord, history ≠ [] →
        (get_request_stats history).total_requests = history.length
        ∧ (get_request_stats history).success_rate
            = ((history.filter (fun r => r.success)).length : ℚ) / history.length) := by
  constructor
  · exact ⟨rfl, rfl, rfl⟩
  · intro history hne
    have hpos : 0 < history.length := List.length_pos.2 hne
    unfold get_request_stats
    rw [if_neg (by simp [List.isEmpty_iff, hne])]
    exact ⟨rfl, by simp [hpos]⟩

/-- Witness for C10 on a concrete two-record history (one success, one
failure): success rate 1/2. -/
theorem get_request_stats_safe_witness :
    (get_request_stats
        [⟨.generate_image, true, 0⟩, ⟨.create_variation, false, 1⟩]).total_requests
      = ([⟨.generate_image, true, 0⟩, ⟨.create_variation, false, 1⟩] :
          List RequestRecord).length
    ∧ (get_request_stats
        [⟨.generate_image, true, 0⟩, ⟨.create_variation, false, 1⟩]).success_rate
      = ((([⟨.generate_image, true, 0⟩, ⟨.create_variation, false, 1⟩] :
          List RequestRecord).filter (fun r => r.success)).length : ℚ)
        / ([⟨.generate_image, true, 0⟩, ⟨.create_variation, false, 1⟩] :
          List RequestRecord).length :=
  get_request_stats_safe.2
    [⟨.generate_image, true, 0⟩, ⟨.create_variation, false, 1⟩] (by simp)

end Dalle
